import Mathlib

/-!
Verification of the sandboxfs tree-engine core (`lib.rs`).

The development shallowly embeds the Rust code of the repository: `Mapping`
validation, the monotonic identifier generator, mapping application and root
construction, the `create_as` create-then-chown protocol, the writability
gating of the FUSE facade, and the inode table registration discipline.
Machine integers (`u64` / 64-bit `usize`) are modelled as `Nat` with explicit
`% 2 ^ 64` where the Rust code can wrap.  Host syscalls (stat, chown, ...)
are out-of-scope primitives and enter as explicit parameters or result
values.  Panics are modelled as a distinguished outcome carrying the panic
message; fallible (`Result` / `Fallible`) code returns `Except`.
-/

namespace Sandboxfs

/-- A component of a Unix path, as produced by Rust `Path::components()`.
On Unix there are no `Prefix` components, so the embedding omits them. -/
inductive PathComp
  | rootDir
  | curDir
  | parentDir
  | normal (s : String)
  deriving DecidableEq, Repr

/-- A Unix path.  `⟨abs, segs⟩` stands for the string
`(if abs then "/" else "") ++ String.intercalate "/" segs`: `segs` are the
raw slash-separated segments, which may be empty, `"."` or `".."`. -/
structure OsPath where
  absolute : Bool
  segs : List String
  deriving DecidableEq, Repr

/-- The component contributed by one raw segment: empty segments (redundant
separators) and `"."` segments are elided, `".."` becomes a parent-dir
component, anything else is a normal component.  This is the behaviour of
Rust's `Components` iterator for non-leading segments. -/
def segComp (s : String) : Option PathComp :=
  if s = "" then none
  else if s = "." then none
  else if s = ".." then some PathComp.parentDir
  else some (PathComp.normal s)

/-- Rust `Path::components()`: an absolute path starts with `RootDir`; a
relative path keeps a leading `CurDir` (`"./x"`); all other `"."` and empty
segments are elided. -/
def OsPath.components (p : OsPath) : List PathComp :=
  if p.absolute then
    PathComp.rootDir :: p.segs.filterMap segComp
  else
    match p.segs with
    | [] => []
    | s :: _ =>
      if s = "." then PathComp.curDir :: p.segs.filterMap segComp
      else p.segs.filterMap segComp

/-- Rust `Path::parent()` returns `None` exactly for the empty path and for
paths that collapse to the root directory. -/
def OsPath.parentIsNone (p : OsPath) : Bool :=
  match p.components with
  | [] => true
  | [PathComp.rootDir] => true
  | _ => false

/-- Rendering of a path back to its string, used by `Display` contexts in
error messages. -/
def OsPath.render (p : OsPath) : String :=
  (if p.absolute then "/" else "") ++ String.intercalate "/" p.segs

/-- `MappingError` from `lib.rs`: a mapping specification was invalid. -/
inductive MappingError
  | PathNotAbsolute (path : OsPath)
  | PathNotNormalized (path : OsPath)
  deriving DecidableEq, Repr

/-- `Mapping` from `lib.rs`: how a path inside the sandbox is connected to a
path of the underlying file system. -/
structure Mapping where
  path : OsPath
  underlying_path : OsPath
  writable : Bool
  deriving DecidableEq, Repr

/-- The `is_not_normal` closure of `Mapping::from_parts`.  In the source,
`CurDir` and `RootDir` are unreachable at the call site (the iterator has
already consumed the root, and dot components are elided) and `Prefix` does
not arise on Unix, so only `ParentDir` reports `true`. -/
def isNotNormal : PathComp → Bool
  | PathComp.parentDir => true
  | _ => false

/-- The `is_normalized` check of `Mapping::from_parts`: after consuming the
root component, no remaining component may be non-normal. -/
def fromPartsNormCheck (p : OsPath) : Bool :=
  ((p.components.drop 1).find? isNotNormal).isNone

/-- `Mapping::from_parts`: validate that the inner path is absolute and
normalized and that the underlying path is absolute. -/
def Mapping.from_parts (path underlying_path : OsPath) (writable : Bool) :
    Except MappingError Mapping :=
  if path.absolute = false then
    Except.error (MappingError.PathNotAbsolute path)
  else if fromPartsNormCheck path = false then
    Except.error (MappingError.PathNotNormalized path)
  else if underlying_path.absolute = false then
    Except.error (MappingError.PathNotAbsolute underlying_path)
  else
    Except.ok ⟨path, underlying_path, writable⟩

/-- `Mapping::is_root`: the mapping is for the root directory iff the inner
path has no parent. -/
def Mapping.is_root (m : Mapping) : Bool :=
  m.path.parentIsNone

/-- `Display` for `Mapping`: `"{path} -> {underlying_path} ({writability})"`. -/
def Mapping.displayText (m : Mapping) : String :=
  m.path.render ++ " -> " ++ m.underlying_path.render ++
    (if m.writable then " (read/write)" else " (read-only)")

/-- The spec-side normalization predicate for claim C1: the path contains no
parent-dir components (there are no prefix components on Unix). -/
def specNormalized (p : OsPath) : Bool :=
  decide (PathComp.parentDir ∉ p.components)

/-- Number of values of a `u64`; also the modulus of a 64-bit `usize`. -/
def U64_LIMIT : Nat := 2 ^ 64

/-- `IdGenerator::next` on a generator whose `AtomicUsize` holds `last_id`
(on a 64-bit platform, so `usize` wraps at `2 ^ 64`): `fetch_add(1)` returns
the prior value and stores the wrapped successor; if the returned value is
`u64::MAX` the process panics with "Ran out of identifiers".  The panic is
modelled as `Except.error` carrying the panic message; on success the result
is `(returned id, new stored counter)`. -/
def IdGenerator.next (last_id : Nat) : Except String (Nat × Nat) :=
  let id := last_id % U64_LIMIT
  let stored := (last_id + 1) % U64_LIMIT
  if U64_LIMIT - 1 ≤ id then Except.error "Ran out of identifiers"
  else Except.ok (id, stored)

/-- A sequence of `n` calls to `IdGenerator::next` starting from counter
state `s`, collecting the returned identifiers; stops at the first panic. -/
def IdGenerator.run (s : Nat) : Nat → Except String (List Nat × Nat)
  | 0 => Except.ok ([], s)
  | n + 1 =>
    match IdGenerator.next s with
    | Except.error e => Except.error e
    | Except.ok (v, s') =>
      match IdGenerator.run s' n with
      | Except.error e => Except.error e
      | Except.ok (vs, sf) => Except.ok (v :: vs, sf)

/-! ### Helper lemmas -/

theorem find_isNotNormal_none_iff (l : List PathComp) :
    ((l.find? isNotNormal).isNone = true) ↔ PathComp.parentDir ∉ l := by
  rw [Option.isNone_iff_eq_none, List.find?_eq_none]
  constructor
  · intro h hmem
    have := h _ hmem
    simp [isNotNormal] at this
  · intro h x hx
    cases x with
    | parentDir => exact absurd hx h
    | rootDir => simp [isNotNormal]
    | curDir => simp [isNotNormal]
    | normal s => simp [isNotNormal]

theorem specNormalized_eq_check (p : OsPath) (hp : p.absolute = true) :
    specNormalized p = fromPartsNormCheck p := by
  show specNormalized p = ((p.components.drop 1).find? isNotNormal).isNone
  have hcomp : p.components = PathComp.rootDir :: p.segs.filterMap segComp := by
    simp [OsPath.components, hp]
  by_cases h : PathComp.parentDir ∈ p.components
  · have h1 : specNormalized p = false := by simp [specNormalized, h]
    have h2 : PathComp.parentDir ∈ p.components.drop 1 := by
      rw [hcomp] at h ⊢
      simpa using h
    have h3 : ((p.components.drop 1).find? isNotNormal).isNone = false := by
      by_contra hc
      have : ((p.components.drop 1).find? isNotNormal).isNone = true := by
        revert hc; cases ((p.components.drop 1).find? isNotNormal).isNone <;> simp
      exact ((find_isNotNormal_none_iff _).mp this) h2
    rw [h1, h3]
  · have h1 : specNormalized p = true := by simp [specNormalized, h]
    have h2 : PathComp.parentDir ∉ p.components.drop 1 := by
      intro hmem
      exact h (List.mem_of_mem_drop hmem)
    have h3 : ((p.components.drop 1).find? isNotNormal).isNone = true :=
      (find_isNotNormal_none_iff _).mpr h2
    rw [h1, h3]

theorem idNext_eq (s : Nat) :
    IdGenerator.next s =
      if U64_LIMIT - 1 ≤ s % U64_LIMIT then Except.error "Ran out of identifiers"
      else Except.ok (s % U64_LIMIT, (s + 1) % U64_LIMIT) :=
  rfl

theorem idNext_ok (s : Nat) (hs : s < U64_LIMIT) (hne : s ≠ U64_LIMIT - 1) :
    IdGenerator.next s = Except.ok (s, s + 1) ∧ s < U64_LIMIT - 1 := by
  have hpos : 0 < U64_LIMIT := by norm_num [U64_LIMIT]
  have hlt : s < U64_LIMIT - 1 := by omega
  have hmod : s % U64_LIMIT = s := Nat.mod_eq_of_lt hs
  have hmod1 : (s + 1) % U64_LIMIT = s + 1 := Nat.mod_eq_of_lt (by omega)
  have hcond : ¬ (U64_LIMIT - 1 ≤ s % U64_LIMIT) := by rw [hmod]; omega
  refine ⟨?_, hlt⟩
  rw [idNext_eq, if_neg hcond, hmod, hmod1]

theorem idRun_ok_range (n : Nat) : ∀ s vs sf, s < U64_LIMIT →
    IdGenerator.run s n = Except.ok (vs, sf) →
    vs = List.range' s n ∧ sf = s + n := by
  induction n with
  | zero =>
    intro s vs sf _ h
    simp [IdGenerator.run] at h
    simp [h.1, h.2]
  | succ n ih =>
    intro s vs sf hs h
    unfold IdGenerator.run at h
    by_cases hne : s = U64_LIMIT - 1
    · have hmod : s % U64_LIMIT = s := Nat.mod_eq_of_lt hs
      have : IdGenerator.next s = Except.error "Ran out of identifiers" := by
        simp [IdGenerator.next, hmod, hne]
      rw [this] at h
      simp at h
    · obtain ⟨hnext, hlt⟩ := idNext_ok s hs hne
      rw [hnext] at h
      simp only at h
      cases hrun : IdGenerator.run (s + 1) n with
      | error e => rw [hrun] at h; simp at h
      | ok p =>
        obtain ⟨vs', sf'⟩ := p
        rw [hrun] at h
        simp at h
        have hs1 : s + 1 < U64_LIMIT := by omega
        obtain ⟨hv, hf⟩ := ih (s + 1) vs' sf' hs1 hrun
        rw [← h.1, ← h.2, hv, hf]
        constructor
        · rw [List.range'_succ]
        · omega

/-! ### Claims C1 to C3 -/

/-- C1: `Mapping::from_parts` succeeds (returning exactly the mapping built
from its arguments) iff the inner path is absolute and contains no
parent-dir components (current-dir components and redundant separators are
elided by `components`; prefix components do not exist on Unix) and the
underlying path is absolute; a failed absoluteness check reports
`PathNotAbsolute` naming the offending path, and a failed normalization
check reports `PathNotNormalized` naming the inner path. -/
theorem from_parts_not_abs (p u : OsPath) (w : Bool) (hp : p.absolute = false) :
    Mapping.from_parts p u w = Except.error (MappingError.PathNotAbsolute p) := by
  unfold Mapping.from_parts
  rw [hp, if_pos rfl]

theorem from_parts_not_norm (p u : OsPath) (w : Bool) (hp : p.absolute = true)
    (hn : fromPartsNormCheck p = false) :
    Mapping.from_parts p u w = Except.error (MappingError.PathNotNormalized p) := by
  unfold Mapping.from_parts
  rw [hp, hn, if_neg (by simp), if_pos rfl]

theorem from_parts_u_not_abs (p u : OsPath) (w : Bool) (hp : p.absolute = true)
    (hn : fromPartsNormCheck p = true) (hu : u.absolute = false) :
    Mapping.from_parts p u w = Except.error (MappingError.PathNotAbsolute u) := by
  unfold Mapping.from_parts
  rw [hp, hn, hu, if_neg (by simp), if_neg (by simp), if_pos rfl]

theorem from_parts_ok (p u : OsPath) (w : Bool) (hp : p.absolute = true)
    (hn : fromPartsNormCheck p = true) (hu : u.absolute = true) :
    Mapping.from_parts p u w = Except.ok ⟨p, u, w⟩ := by
  unfold Mapping.from_parts
  rw [hp, hn, hu, if_neg (by simp), if_neg (by simp), if_neg (by simp)]

theorem c1_from_parts_validation (p u : OsPath) (w : Bool) :
    (Mapping.from_parts p u w = Except.ok ⟨p, u, w⟩ ↔
      (p.absolute = true ∧ specNormalized p = true ∧ u.absolute = true))
    ∧ (p.absolute = false →
        Mapping.from_parts p u w = Except.error (MappingError.PathNotAbsolute p))
    ∧ (p.absolute = true → specNormalized p = false →
        Mapping.from_parts p u w = Except.error (MappingError.PathNotNormalized p))
    ∧ (p.absolute = true → specNormalized p = true → u.absolute = false →
        Mapping.from_parts p u w = Except.error (MappingError.PathNotAbsolute u)) := by
  refine ⟨⟨?_, ?_⟩, ?_, ?_, ?_⟩
  · intro h
    by_cases hp : p.absolute = true
    · by_cases hn : specNormalized p = true
      · by_cases hu : u.absolute = true
        · exact ⟨hp, hn, hu⟩
        · have hu' : u.absolute = false := by simpa using hu
          rw [from_parts_u_not_abs p u w hp
            ((specNormalized_eq_check p hp).symm.trans hn) hu'] at h
          exact absurd h (by simp)
      · have hn' : specNormalized p = false := by simpa using hn
        rw [from_parts_not_norm p u w hp
          ((specNormalized_eq_check p hp).symm.trans hn')] at h
        exact absurd h (by simp)
    · have hp' : p.absolute = false := by simpa using hp
      rw [from_parts_not_abs p u w hp'] at h
      exact absurd h (by simp)
  · rintro ⟨hp, hn, hu⟩
    exact from_parts_ok p u w hp ((specNormalized_eq_check p hp).symm.trans hn) hu
  · intro hp
    exact from_parts_not_abs p u w hp
  · intro hp hn
    exact from_parts_not_norm p u w hp
      ((specNormalized_eq_check p hp).symm.trans hn)
  · intro hp hn hu
    exact from_parts_u_not_abs p u w hp
      ((specNormalized_eq_check p hp).symm.trans hn) hu

/-- Witness for C1 at concrete paths: `/foo/.///bar` mapped to `/bar` is
accepted, and the relative inner path `foo` is rejected naming `foo`. -/
theorem c1_from_parts_validation_witness :
    Mapping.from_parts ⟨true, ["foo", ".", "", "", "bar"]⟩ ⟨true, ["bar"]⟩ false =
      Except.ok ⟨⟨true, ["foo", ".", "", "", "bar"]⟩, ⟨true, ["bar"]⟩, false⟩
    ∧ Mapping.from_parts ⟨false, ["foo"]⟩ ⟨true, ["bar"]⟩ false =
      Except.error (MappingError.PathNotAbsolute ⟨false, ["foo"]⟩) :=
  ⟨(c1_from_parts_validation ⟨true, ["foo", ".", "", "", "bar"]⟩ ⟨true, ["bar"]⟩
      false).1.mpr ⟨rfl, by decide, rfl⟩,
   (c1_from_parts_validation ⟨false, ["foo"]⟩ ⟨true, ["bar"]⟩ false).2.1 rfl⟩

/-- C2: on any 64-bit counter state, `IdGenerator::next` either panics with
"Ran out of identifiers" (exactly when the prior value is `2 ^ 64 - 1`) or
returns the prior counter value — which is then strictly below
`2 ^ 64 - 1` — while incrementing the stored counter. -/
theorem c2_id_next_bounded (s : Nat) (hs : s < U64_LIMIT) :
    (s = U64_LIMIT - 1 →
      IdGenerator.next s = Except.error "Ran out of identifiers")
    ∧ (s ≠ U64_LIMIT - 1 →
      IdGenerator.next s = Except.ok (s, s + 1) ∧ s < U64_LIMIT - 1) := by
  constructor
  · intro he
    have hmod : s % U64_LIMIT = s := Nat.mod_eq_of_lt hs
    simp [IdGenerator.next, hmod, he]
  · intro hne
    exact idNext_ok s hs hne

/-- Witness for C2: at counter state 5 the call returns 5 and stores 6. -/
theorem c2_id_next_bounded_witness :
    IdGenerator.next 5 = Except.ok (5, 6) ∧ (5 : Nat) < U64_LIMIT - 1 :=
  (c2_id_next_bounded 5 (by norm_num [U64_LIMIT])).2 (by norm_num [U64_LIMIT])

/-- C3: the identifiers returned by any panic-free sequence of
`IdGenerator::next` calls are strictly increasing, and in particular no
identifier is ever returned twice. -/
theorem c3_id_monotonic (s n : Nat) (vs : List Nat) (sf : Nat)
    (hs : s < U64_LIMIT) (h : IdGenerator.run s n = Except.ok (vs, sf)) :
    List.Pairwise (· < ·) vs ∧ vs.Nodup := by
  obtain ⟨hv, _⟩ := idRun_ok_range n s vs sf hs h
  subst hv
  exact ⟨List.pairwise_lt_range' s n, List.nodup_range' s n⟩

/-- Witness for C3: three calls starting at counter 1 return `[1, 2, 3]`,
which is strictly increasing and duplicate-free. -/
theorem c3_id_monotonic_witness :
    List.Pairwise (· < ·) [1, 2, 3] ∧ List.Nodup [1, 2, 3] :=
  c3_id_monotonic 1 3 [1, 2, 3] 4 (by norm_num [U64_LIMIT]) (by rfl)

/-! ### Mapping application and root construction -/

/-- The arguments of a delegated `Node::map` call on the root directory:
the path components below the root, the underlying path, and the
writability flag. -/
structure MapCall where
  components : List PathComp
  underlying_path : OsPath
  writable : Bool
  deriving DecidableEq, Repr

/-- The root-check half of `apply_mapping`: collect the components of the
inner path, drop the leading `RootDir`, and fail with
"Root can be mapped at most once" if nothing remains; otherwise produce
the `Node::map` call on the root node. -/
def applyMappingCall (m : Mapping) : Except String MapCall :=
  if (m.path.components.drop 1).isEmpty then
    Except.error "Root can be mapped at most once"
  else
    Except.ok ⟨m.path.components.drop 1, m.underlying_path, m.writable⟩

/-- `apply_mapping` from `lib.rs`.  The recursive descent `Node::map` of the
directory node lives in `nodes/dir.rs`, which is not among the sources; it
enters as the parameter `mapFn`. -/
def apply_mapping (mapFn : MapCall → Except String Unit) (m : Mapping) :
    Except String Unit :=
  match applyMappingCall m with
  | Except.error e => Except.error e
  | Except.ok call => mapFn call

/-- `failure::ResultExt::context` followed by `flatten_causes`: the error is
prefixed with "Cannot map '<mapping>'". -/
def mapContext (m : Mapping) (e : String) : String :=
  "Cannot map '" ++ m.displayText ++ "': " ++ e

/-- `ReconfigurableSandboxFS::map`: apply the mapping to the shared root,
wrapping any failure in the "Cannot map" context. -/
def ReconfigurableSandboxFS.map (mapFn : MapCall → Except String Unit)
    (m : Mapping) : Except String Unit :=
  match apply_mapping mapFn m with
  | Except.error e => Except.error (mapContext m e)
  | Except.ok _ => Except.ok ()

/-- The `for mapping in rest` loop of `create_root`: apply each mapping in
order with `apply_mapping`, wrapping failures in the "Cannot map" context,
and record the `Node::map` calls delegated on success. -/
def apply_all (mapFn : MapCall → Except String Unit) :
    List Mapping → Except String (List MapCall)
  | [] => Except.ok []
  | m :: rest =>
    match applyMappingCall m with
    | Except.error e => Except.error (mapContext m e)
    | Except.ok call =>
      match mapFn call with
      | Except.error e => Except.error (mapContext m e)
      | Except.ok _ =>
        match apply_all mapFn rest with
        | Except.error e => Except.error e
        | Except.ok calls => Except.ok (call :: calls)

/-- Outcome of a computation that can panic (fatal process abort, carrying
the panic message), fail with a `failure::Error` (carrying its flattened
message), or succeed. -/
inductive Outcome (α : Type)
  | panic (msg : String)
  | fatalErr (msg : String)
  | ok (a : α)
  deriving DecidableEq, Repr

/-- Modelled from the spec: the root directory node produced by
`nodes::Dir::new_empty` / `nodes::Dir::new_mapped` (`nodes/dir.rs` is not
among the sources).  Per the spec, a scaffold directory carries its inode
and no underlying path, while a mapped directory carries its inode, its
underlying path and its writability. -/
inductive RootNode
  | scaffold (inode : Nat)
  | mapped (inode : Nat) (underlying_path : OsPath) (writable : Bool)
  deriving DecidableEq, Repr

/-- `Node::inode()` for the root node. -/
def RootNode.inode : RootNode → Nat
  | RootNode.scaffold i => i
  | RootNode.mapped i _ _ => i

/-- Modelled from the spec: the result of the host `fs::symlink_metadata`
stat primitive, of which root construction only consumes the file type. -/
structure FileStat where
  isDir : Bool
  deriving DecidableEq, Repr

/-- The root-selection half of `create_root`: decide whether the root is a
fresh scaffold directory or a mapped directory backed by the first mapping,
and which mappings remain to be applied.  `stat` is the host
`fs::symlink_metadata` primitive (`none` models a failed stat). -/
def createRootNode (stat : OsPath → Option FileStat) (mappings : List Mapping)
    (ids : Nat) : Outcome (RootNode × Nat × List Mapping) :=
  match mappings with
  | [] =>
    match IdGenerator.next ids with
    | Except.error msg => Outcome.panic msg
    | Except.ok (i, ids') => Outcome.ok (RootNode.scaffold i, ids', [])
  | first :: restAll =>
    if first.is_root = true then
      match stat first.underlying_path with
      | none =>
        Outcome.fatalErr
          ("Failed to map root: stat failed for " ++ first.underlying_path.render)
      | some fs_attr =>
        if fs_attr.isDir = true then
          match IdGenerator.next ids with
          | Except.error msg => Outcome.panic msg
          | Except.ok (i, ids') =>
            Outcome.ok
              (RootNode.mapped i first.underlying_path first.writable, ids', restAll)
        else
          Outcome.fatalErr
            ("Failed to map root: " ++ first.underlying_path.render ++
              " is not a directory")
    else
      match IdGenerator.next ids with
      | Except.error msg => Outcome.panic msg
      | Except.ok (i, ids') => Outcome.ok (RootNode.scaffold i, ids', first :: restAll)

/-- `create_root` from `lib.rs`: build the root node from the mapping list,
then apply every remaining mapping with `map()`.  On success it returns the
root node, the identifier counter after root creation, and the delegated
`Node::map` calls in order. -/
def create_root (stat : OsPath → Option FileStat)
    (mapFn : MapCall → Except String Unit) (mappings : List Mapping)
    (ids : Nat) : Outcome (RootNode × Nat × List MapCall) :=
  match createRootNode stat mappings ids with
  | Outcome.panic msg => Outcome.panic msg
  | Outcome.fatalErr msg => Outcome.fatalErr msg
  | Outcome.ok (root, ids', rest) =>
    match apply_all mapFn rest with
    | Except.error e => Outcome.fatalErr e
    | Except.ok calls => Outcome.ok (root, ids', calls)

/-- The kernel's root inode sentinel, `fuse::FUSE_ROOT_ID`. -/
def FUSE_ROOT_ID : Nat := 1

/-- An association-list model of a `HashMap<u64, V>`; the most recent
insertion comes first. -/
abbrev NodeTable (α : Type) := List (Nat × α)

/-- `HashMap::get`. -/
def tableGet {α : Type} : NodeTable α → Nat → Option α
  | [], _ => none
  | (k, v) :: rest, i => if k = i then some v else tableGet rest i

/-- The state established by `SandboxFS::create`: the root node, the inode
table, and the identifier counter. -/
structure SandboxFSState where
  root : RootNode
  nodes : NodeTable RootNode
  ids : Nat
  deriving DecidableEq, Repr

/-- `SandboxFS::create`: start the identifier generator at `FUSE_ROOT_ID`,
build the root, assert that the root received inode `FUSE_ROOT_ID`, and
register the root in the `nodes` table. -/
def SandboxFS.create (stat : OsPath → Option FileStat)
    (mapFn : MapCall → Except String Unit) (mappings : List Mapping) :
    Outcome SandboxFSState :=
  match create_root stat mapFn mappings FUSE_ROOT_ID with
  | Outcome.panic msg => Outcome.panic msg
  | Outcome.fatalErr msg => Outcome.fatalErr msg
  | Outcome.ok (root, ids', _calls) =>
    if FUSE_ROOT_ID = root.inode then
      Outcome.ok ⟨root, [(root.inode, root)], ids'⟩
    else
      Outcome.panic "assertion failed: fuse::FUSE_ROOT_ID == root.inode()"

/-! ### Helper lemmas for C4 to C6 -/

theorem idNext_ok_inv (s v s' : Nat) (h : IdGenerator.next s = Except.ok (v, s')) :
    v = s % U64_LIMIT ∧ s' = (s + 1) % U64_LIMIT := by
  rw [idNext_eq] at h
  by_cases hc : U64_LIMIT - 1 ≤ s % U64_LIMIT
  · rw [if_pos hc] at h
    exact absurd h (by simp)
  · rw [if_neg hc] at h
    have h' := Except.ok.inj h
    exact ⟨(Prod.mk.injEq _ _ _ _ ▸ h').1.symm, (Prod.mk.injEq _ _ _ _ ▸ h').2.symm⟩

theorem createRootNode_ok_inv (stat : OsPath → Option FileStat)
    (ms : List Mapping) (ids : Nat) (root : RootNode) (ids' : Nat)
    (rest : List Mapping)
    (h : createRootNode stat ms ids = Outcome.ok (root, ids', rest)) :
    root.inode = ids % U64_LIMIT ∧ ids' = (ids + 1) % U64_LIMIT ∧
      ((ms = [] ∧ rest = []) ∨
        (∃ first restAll, ms = first :: restAll ∧
          ((first.is_root = true ∧ rest = restAll ∧
              root = RootNode.mapped root.inode first.underlying_path first.writable) ∨
            (first.is_root = false ∧ rest = first :: restAll ∧
              root = RootNode.scaffold root.inode)))) := by
  cases ms with
  | nil =>
    simp only [createRootNode] at h
    cases hn : IdGenerator.next ids with
    | error msg => rw [hn] at h; simp at h
    | ok p =>
      obtain ⟨v, s'⟩ := p
      rw [hn] at h
      obtain ⟨hv, hs'⟩ := idNext_ok_inv _ _ _ hn
      simp only [Outcome.ok.injEq, Prod.mk.injEq] at h
      obtain ⟨h1, h2, h3⟩ := h
      refine ⟨?_, ?_, Or.inl ⟨rfl, h3.symm⟩⟩
      · rw [← h1, RootNode.inode, hv]
      · rw [← h2, hs']
  | cons first restAll =>
    simp only [createRootNode] at h
    split at h
    · rename_i hfr
      split at h
      · simp at h
      · rename_i fs_attr hstat
        split at h
        · rename_i hdir
          split at h
          · simp at h
          · rename_i v s' hn
            obtain ⟨hv, hs'⟩ := idNext_ok_inv _ _ _ hn
            simp only [Outcome.ok.injEq, Prod.mk.injEq] at h
            obtain ⟨h1, h2, h3⟩ := h
            have hroot : root.inode = ids % U64_LIMIT := by
              rw [← h1, RootNode.inode, hv]
            refine ⟨hroot, by rw [← h2, hs'], Or.inr ⟨first, restAll, rfl,
              Or.inl ⟨hfr, h3.symm, ?_⟩⟩⟩
            rw [← h1, RootNode.inode]
        · simp at h
    · rename_i hfr
      split at h
      · simp at h
      · rename_i v s' hn
        obtain ⟨hv, hs'⟩ := idNext_ok_inv _ _ _ hn
        simp only [Outcome.ok.injEq, Prod.mk.injEq] at h
        obtain ⟨h1, h2, h3⟩ := h
        have hfr' : first.is_root = false := by simpa using hfr
        have hroot : root.inode = ids % U64_LIMIT := by
          rw [← h1, RootNode.inode, hv]
        refine ⟨hroot, by rw [← h2, hs'], Or.inr ⟨first, restAll, rfl,
          Or.inr ⟨hfr', h3.symm, ?_⟩⟩⟩
        rw [← h1, RootNode.inode]

theorem create_root_ok_inv (stat : OsPath → Option FileStat)
    (mapFn : MapCall → Except String Unit) (ms : List Mapping) (ids : Nat)
    (root : RootNode) (ids' : Nat) (calls : List MapCall)
    (h : create_root stat mapFn ms ids = Outcome.ok (root, ids', calls)) :
    ∃ rest, createRootNode stat ms ids = Outcome.ok (root, ids', rest) ∧
      apply_all mapFn rest = Except.ok calls := by
  unfold create_root at h
  split at h
  · simp at h
  · simp at h
  · rename_i root0 ids0 rest0 hcn
    split at h
    · simp at h
    · rename_i calls0 ha
      simp only [Outcome.ok.injEq, Prod.mk.injEq] at h
      obtain ⟨h1, h2, h3⟩ := h
      subst h1
      subst h2
      subst h3
      exact ⟨rest0, hcn, ha⟩

theorem sandbox_create_ok_inv (stat : OsPath → Option FileStat)
    (mapFn : MapCall → Except String Unit) (ms : List Mapping)
    (st : SandboxFSState) (h : SandboxFS.create stat mapFn ms = Outcome.ok st) :
    ∃ root ids' calls,
      create_root stat mapFn ms FUSE_ROOT_ID = Outcome.ok (root, ids', calls) ∧
      FUSE_ROOT_ID = root.inode ∧ st = ⟨root, [(root.inode, root)], ids'⟩ := by
  unfold SandboxFS.create at h
  split at h
  · simp at h
  · simp at h
  · rename_i root0 ids0 calls0 hcr
    by_cases hif : FUSE_ROOT_ID = root0.inode
    · rw [if_pos hif] at h
      exact ⟨root0, ids0, calls0, hcr, hif, (Outcome.ok.inj h).symm⟩
    · rw [if_neg hif] at h
      simp at h

theorem apply_all_root_never_ok (mapFn : MapCall → Except String Unit)
    (m : Mapping) (hroot : (m.path.components.drop 1).isEmpty = true) :
    ∀ ms : List Mapping, m ∈ ms → ∀ calls, apply_all mapFn ms ≠ Except.ok calls := by
  intro ms
  induction ms with
  | nil => intro hmem; exact absurd hmem (List.not_mem_nil m)
  | cons hd tl ih =>
    intro hmem calls hok
    rcases List.mem_cons.mp hmem with heq | htl
    · subst heq
      have hcall : applyMappingCall m = Except.error "Root can be mapped at most once" := by
        unfold applyMappingCall
        rw [if_pos (by simp_all)]
      unfold apply_all at hok
      rw [hcall] at hok
      simp at hok
    · unfold apply_all at hok
      split at hok
      · simp at hok
      · split at hok
        · simp at hok
        · split at hok
          · simp at hok
          · rename_i calls' ha
            exact ih htl calls' ha

/-! ### Claims C4 to C6 -/

/-- C4: a mapping whose inner path collapses to `/` (no components after the
root component) makes `apply_mapping` fail with
"Root can be mapped at most once" for every possible `Node::map`
implementation — so the root node is never touched and the tree is left
unchanged; the same failure, wrapped in the "Cannot map" context, is what a
reconfiguration `Map` of `/` produces; and an initial mapping list that
still contains a root mapping after its first entry can never be built
successfully by `create_root`. -/
theorem c4_root_mapped_at_most_once (mapFn : MapCall → Except String Unit)
    (m : Mapping) (hroot : (m.path.components.drop 1).isEmpty = true) :
    apply_mapping mapFn m = Except.error "Root can be mapped at most once"
    ∧ ReconfigurableSandboxFS.map mapFn m =
        Except.error (mapContext m "Root can be mapped at most once")
    ∧ (∀ stat first rest ids r, m ∈ rest →
        create_root stat mapFn (first :: rest) ids ≠ Outcome.ok r) := by
  have hcall : applyMappingCall m = Except.error "Root can be mapped at most once" := by
    unfold applyMappingCall
    rw [if_pos (by simp_all)]
  have h1 : apply_mapping mapFn m = Except.error "Root can be mapped at most once" := by
    unfold apply_mapping
    rw [hcall]
  refine ⟨h1, ?_, ?_⟩
  · unfold ReconfigurableSandboxFS.map
    rw [h1]
  · intro stat first rest ids r hmem hok
    obtain ⟨root, ids', calls⟩ := r
    obtain ⟨applied, hcn, ha⟩ :=
      create_root_ok_inv stat mapFn (first :: rest) ids root ids' calls hok
    have happlied : m ∈ applied := by
      obtain ⟨-, -, hshape⟩ := createRootNode_ok_inv stat _ ids root ids' applied hcn
      rcases hshape with ⟨hnil, -⟩ | ⟨first', restAll, hcons, hcase⟩
      · exact absurd hnil (by simp)
      · injection hcons with h1 h2
        subst h1
        subst h2
        rcases hcase with ⟨-, happ, -⟩ | ⟨-, happ, -⟩
        · rw [happ]; exact hmem
        · rw [happ]; exact List.mem_cons_of_mem first hmem
    exact apply_all_root_never_ok mapFn m hroot applied happlied calls ha

/-- Witness for C4 at the concrete root mapping `/ -> /host/root`. -/
theorem c4_root_mapped_at_most_once_witness :
    apply_mapping (fun _ => Except.ok ()) ⟨⟨true, []⟩, ⟨true, ["host", "root"]⟩, false⟩ =
      Except.error "Root can be mapped at most once"
    ∧ create_root (fun _ => none) (fun _ => Except.ok ())
        [⟨⟨true, []⟩, ⟨true, ["host", "root"]⟩, false⟩,
         ⟨⟨true, []⟩, ⟨true, ["host", "root"]⟩, false⟩] 1 ≠
      Outcome.ok (RootNode.scaffold 1, 2, []) := by
  have h := c4_root_mapped_at_most_once (fun _ => Except.ok ())
    ⟨⟨true, []⟩, ⟨true, ["host", "root"]⟩, false⟩ (by rfl)
  exact ⟨h.1, h.2.2 (fun _ => none) ⟨⟨true, []⟩, ⟨true, ["host", "root"]⟩, false⟩
    [⟨⟨true, []⟩, ⟨true, ["host", "root"]⟩, false⟩] 1
    (RootNode.scaffold 1, 2, []) (by simp)⟩

/-- C5: `create_root` synthesizes an empty scaffold root when the mapping
list is empty or starts with a non-root mapping (and then applies every
mapping with `map()`); when the list starts with a root mapping it stats the
underlying path — failing hard when the stat fails or the target is not a
directory — and otherwise creates a mapped root carrying that entry's
underlying path and writability, then applies every remaining mapping with
`map()`. -/
theorem c5_create_root_cases (stat : OsPath → Option FileStat)
    (mapFn : MapCall → Except String Unit) (ids : Nat)
    (hids : ids < U64_LIMIT - 1) :
    (create_root stat mapFn [] ids = Outcome.ok (RootNode.scaffold ids, ids + 1, []))
    ∧ (∀ first rest, first.is_root = false →
        create_root stat mapFn (first :: rest) ids =
          match apply_all mapFn (first :: rest) with
          | Except.error e => Outcome.fatalErr e
          | Except.ok calls => Outcome.ok (RootNode.scaffold ids, ids + 1, calls))
    ∧ (∀ first rest, first.is_root = true → stat first.underlying_path = none →
        create_root stat mapFn (first :: rest) ids =
          Outcome.fatalErr
            ("Failed to map root: stat failed for " ++ first.underlying_path.render))
    ∧ (∀ (first : Mapping) rest fs_attr, first.is_root = true →
        stat first.underlying_path = some fs_attr → fs_attr.isDir = false →
        create_root stat mapFn (first :: rest) ids =
          Outcome.fatalErr
            ("Failed to map root: " ++ first.underlying_path.render ++
              " is not a directory"))
    ∧ (∀ (first : Mapping) rest fs_attr, first.is_root = true →
        stat first.underlying_path = some fs_attr → fs_attr.isDir = true →
        create_root stat mapFn (first :: rest) ids =
          match apply_all mapFn rest with
          | Except.error e => Outcome.fatalErr e
          | Except.ok calls =>
            Outcome.ok
              (RootNode.mapped ids first.underlying_path first.writable, ids + 1, calls)) := by
  have hs : ids < U64_LIMIT := by
    have hpos : 0 < U64_LIMIT := by norm_num [U64_LIMIT]
    omega
  have hne : ids ≠ U64_LIMIT - 1 := by omega
  have hnext : IdGenerator.next ids = Except.ok (ids, ids + 1) :=
    (idNext_ok ids hs hne).1
  refine ⟨?_, ?_, ?_, ?_, ?_⟩
  · simp [create_root, createRootNode, hnext, apply_all]
  · intro first rest hfr
    simp [create_root, createRootNode, hfr, hnext]
  · intro first rest hfr hstat
    simp [create_root, createRootNode, hfr, hstat]
  · intro first rest fs_attr hfr hstat hdir
    simp [create_root, createRootNode, hfr, hstat, hdir]
  · intro first rest fs_attr hfr hstat hdir
    simp [create_root, createRootNode, hfr, hstat, hdir, hnext]

/-- Witness for C5: an empty mapping list yields a scaffold root with the
first generated inode. -/
theorem c5_create_root_cases_witness :
    create_root (fun _ => none) (fun _ => Except.ok ()) [] 1 =
      Outcome.ok (RootNode.scaffold 1, 2, []) :=
  (c5_create_root_cases (fun _ => none) (fun _ => Except.ok ()) 1
    (by norm_num [U64_LIMIT])).1

/-- C6: whenever `SandboxFS::create` succeeds, the root node carries inode
`FUSE_ROOT_ID` and the `nodes` table maps `FUSE_ROOT_ID` to the root node;
this holds because the identifier generator starts at `FUSE_ROOT_ID` and
the root receives the first generated identifier — any successful
`create_root` run started at `FUSE_ROOT_ID` yields a root with that
inode. -/
theorem c6_root_registered (stat : OsPath → Option FileStat)
    (mapFn : MapCall → Except String Unit) (mappings : List Mapping)
    (st : SandboxFSState)
    (h : SandboxFS.create stat mapFn mappings = Outcome.ok st) :
    st.root.inode = FUSE_ROOT_ID ∧ tableGet st.nodes FUSE_ROOT_ID = some st.root
    ∧ (∀ root ids' calls,
        create_root stat mapFn mappings FUSE_ROOT_ID = Outcome.ok (root, ids', calls) →
        root.inode = FUSE_ROOT_ID) := by
  obtain ⟨root, ids', calls, hcr, hif, hst⟩ :=
    sandbox_create_ok_inv stat mapFn mappings st h
  have hroot : root.inode = FUSE_ROOT_ID := hif.symm
  subst hst
  refine ⟨hroot, by simp [tableGet, hroot], ?_⟩
  intro root1 ids1 calls1 hcr1
  obtain ⟨rest1, hcn1, -⟩ :=
    create_root_ok_inv stat mapFn mappings FUSE_ROOT_ID root1 ids1 calls1 hcr1
  have hv := (createRootNode_ok_inv stat mappings FUSE_ROOT_ID root1 ids1 rest1 hcn1).1
  rw [hv]
  norm_num [FUSE_ROOT_ID, U64_LIMIT]

/-- Witness for C6: creating the file system with no mappings registers the
scaffold root under inode 1. -/
theorem c6_root_registered_witness :
    (SandboxFSState.mk (RootNode.scaffold 1) [(1, RootNode.scaffold 1)] 2).root.inode
        = FUSE_ROOT_ID
    ∧ tableGet (SandboxFSState.mk (RootNode.scaffold 1)
        [(1, RootNode.scaffold 1)] 2).nodes FUSE_ROOT_ID
        = some (SandboxFSState.mk (RootNode.scaffold 1)
            [(1, RootNode.scaffold 1)] 2).root :=
  ⟨(c6_root_registered (fun _ => none) (fun _ => Except.ok ()) []
      (SandboxFSState.mk (RootNode.scaffold 1) [(1, RootNode.scaffold 1)] 2) (by rfl)).1,
   (c6_root_registered (fun _ => none) (fun _ => Except.ok ()) []
      (SandboxFSState.mk (RootNode.scaffold 1) [(1, RootNode.scaffold 1)] 2) (by rfl)).2.1⟩

/-! ### The create-then-chown protocol (`create_as`) -/

/-- The errno values the embedded code mentions, plus a catch-all numeric
constructor for every other errno. -/
inductive Errno
  | EPERM
  | ENOSYS
  | EIO
  | ENOENT
  | other (code : Nat)
  deriving DecidableEq, Repr

/-- A `nix::Error`: either a raw system errno (`nix::Error::Sys`) or some
other kind of failure without an errno. -/
inductive NixError
  | sys (errno : Errno)
  | notSys
  deriving DecidableEq, Repr

/-- The observable outcome of one `create_as` invocation: the returned
`Result`, and whether the chown step and the cleanup-delete step ran. -/
structure CreateAsTrace (T E : Type) where
  result : Except E T
  chownRan : Bool
  deleteRan : Bool

/-- The errno extracted from a failed `fchownat` in `create_as`: a failure
without an errno is logged and normalized to `EIO`. -/
def chownErrno : NixError → Errno
  | NixError.sys e => e
  | NixError.notSys => Errno.EIO

/-- `create_as` from `lib.rs`: run the `create` lambda; on success run
`fchownat(NoFollowSymlink)`; if the chown fails, run the cleanup `delete`
(its own failure is only logged) and return the chown errno.  The host
steps enter as values: `createR` is the result of the `create` lambda,
`chownR` the result of `fchownat` (`none` means success), and `deleteR` the
result of the `delete` lambda, which never influences the returned value.
`ofErrno` is the `From<Errno>` conversion into the caller's error type. -/
def create_as {T E : Type} (ofErrno : Errno → E) (createR : Except E T)
    (chownR : Option NixError) (deleteR : Except E Unit) : CreateAsTrace T E :=
  match createR with
  | Except.error e => ⟨Except.error e, false, false⟩
  | Except.ok v =>
    match chownR with
    | none => ⟨Except.ok v, true, false⟩
    | some err => ⟨Except.error (ofErrno (chownErrno err)), true, true⟩

/-- Modelled from the spec: whether the object `create_as` operates on
exists on the host after the call returns, starting from an absent object.
The create lambda materializes the object exactly when it succeeds;
`fchownat` never changes existence; the cleanup delete removes the object
exactly when it runs and succeeds (the spec's delete is best-effort: a
failed delete leaves the object in place and is only logged). -/
def create_as_object_present {T E : Type} (createR : Except E T)
    (chownR : Option NixError) (deleteR : Except E Unit) : Bool :=
  match createR with
  | Except.error _ => false
  | Except.ok _ =>
    match chownR with
    | none => true
    | some _ =>
      match deleteR with
      | Except.ok _ => false
      | Except.error _ => true

/-- Whether an `Except` value is a success. -/
def exceptIsOk {ε α : Type} : Except ε α → Bool
  | Except.ok _ => true
  | Except.error _ => false

/-! ### Claims C7 and C8 -/

/-- C7: in `create_as`, a failed create returns the create error with
neither chown nor delete running; a successful create followed by a failed
chown runs the cleanup delete and returns the chown errno whatever the
delete result is (a chown failure without an errno is normalized to EIO);
and when create and chown both succeed the create result is returned. -/
theorem c7_create_as_protocol {T E : Type} (ofErrno : Errno → E)
    (createR : Except E T) (chownR : Option NixError) (deleteR : Except E Unit) :
    (∀ e, createR = Except.error e →
      create_as ofErrno createR chownR deleteR =
        CreateAsTrace.mk (Except.error e) false false)
    ∧ (∀ v err, createR = Except.ok v → chownR = some err →
      create_as ofErrno createR chownR deleteR =
        CreateAsTrace.mk (Except.error (ofErrno (chownErrno err))) true true
      ∧ chownErrno NixError.notSys = Errno.EIO)
    ∧ (∀ v, createR = Except.ok v → chownR = none →
      create_as ofErrno createR chownR deleteR =
        CreateAsTrace.mk (Except.ok v) true false) := by
  refine ⟨?_, ?_, ?_⟩
  · intro e he
    subst he
    rfl
  · intro v err hc hch
    subst hc
    subst hch
    exact ⟨rfl, rfl⟩
  · intro v hc hch
    subst hc
    subst hch
    rfl

/-- Witness for C7: a failed create dominates, and a failed chown is
returned after the cleanup delete ran (here the delete itself failed). -/
theorem c7_create_as_protocol_witness :
    create_as (fun e => e) (Except.error Errno.EPERM : Except Errno Unit)
        none (Except.ok ()) =
      CreateAsTrace.mk (Except.error Errno.EPERM) false false
    ∧ create_as (fun e => e) (Except.ok () : Except Errno Unit)
        (some (NixError.sys Errno.ENOENT)) (Except.error Errno.EIO) =
      CreateAsTrace.mk (Except.error Errno.ENOENT) true true :=
  ⟨(c7_create_as_protocol (fun e => e) (Except.error Errno.EPERM) none
      (Except.ok ())).1 Errno.EPERM rfl,
   ((c7_create_as_protocol (fun e => e) (Except.ok ())
      (some (NixError.sys Errno.ENOENT)) (Except.error Errno.EIO)).2.1 ()
      (NixError.sys Errno.ENOENT) rfl rfl).1⟩

/-- C8 counterexample: when the cleanup delete fails after a failed chown,
`create_as` returns an error yet the created underlying object is still
present — an error outcome does not imply the object is absent. -/
theorem c8_counterexample :
    (create_as (fun e => e) (Except.ok () : Except Errno Unit)
        (some (NixError.sys Errno.EPERM)) (Except.error Errno.EIO)).result =
      Except.error Errno.EPERM
    ∧ create_as_object_present (Except.ok () : Except Errno Unit)
        (some (NixError.sys Errno.EPERM)) (Except.error Errno.EIO) = true :=
  ⟨rfl, rfl⟩

/-- C8 (amended): if `create_as` returns an error and the cleanup delete —
whenever it actually ran — succeeded, then the created underlying object is
absent after the call returns. -/
theorem c8_error_implies_absent {T E : Type} (ofErrno : Errno → E)
    (createR : Except E T) (chownR : Option NixError) (deleteR : Except E Unit)
    (herr : exceptIsOk (create_as ofErrno createR chownR deleteR).result = false)
    (hdel : (create_as ofErrno createR chownR deleteR).deleteRan = true →
      exceptIsOk deleteR = true) :
    create_as_object_present createR chownR deleteR = false := by
  cases createR with
  | error e => rfl
  | ok v =>
    cases chownR with
    | none => exact absurd herr (by simp [create_as, exceptIsOk])
    | some err =>
      cases deleteR with
      | ok u => rfl
      | error e =>
        have hcontra := hdel (by rfl)
        simp [exceptIsOk] at hcontra

/-- Witness for the amended C8: a failed create leaves no object behind. -/
theorem c8_error_implies_absent_witness :
    create_as_object_present (Except.error Errno.EPERM : Except Errno Unit)
      none (Except.ok ()) = false :=
  c8_error_implies_absent (fun e => e) (Except.error Errno.EPERM) none
    (Except.ok ()) rfl (fun _ => rfl)

/-! ### Writability gating in the FUSE facade -/

/-- The writability-guarded mutating FUSE handlers of the facade, carrying
the inode numbers the kernel passed in. -/
inductive FuseOp
  | createOp (parent : Nat)
  | mkdirOp (parent : Nat)
  | mknodOp (parent : Nat)
  | symlinkOp (parent : Nat)
  | unlinkOp (parent : Nat)
  | rmdirOp (parent : Nat)
  | renameOp (parent : Nat) (new_parent : Nat)
  | setattrOp (inode : Nat)
  | setxattrOp (inode : Nat)
  | removexattrOp (inode : Nat)
  deriving DecidableEq, Repr

/-- The facade's reply as far as the gating logic is concerned: an errno
sent with `reply.error`, or delegation to the node method — the only path
that can modify the in-memory tree or the host file system. -/
inductive FacadeOutcome
  | errorReply (errno : Errno)
  | delegated
  deriving DecidableEq, Repr

/-- The gating prefix of each mutating FUSE handler from
`impl fuse::Filesystem for SandboxFS`: `writableOf i` abstracts
`find_node(i).writable()` (total, because the kernel only references inodes
it was told about), and `xattrs` is the `SandboxFS.xattrs` flag that guards
`setxattr`/`removexattr` with ENOSYS before anything else. -/
def facadeGate (xattrs : Bool) (writableOf : Nat → Bool) : FuseOp → FacadeOutcome
  | FuseOp.createOp parent =>
    if writableOf parent = false then FacadeOutcome.errorReply Errno.EPERM
    else FacadeOutcome.delegated
  | FuseOp.mkdirOp parent =>
    if writableOf parent = false then FacadeOutcome.errorReply Errno.EPERM
    else FacadeOutcome.delegated
  | FuseOp.mknodOp parent =>
    if writableOf parent = false then FacadeOutcome.errorReply Errno.EPERM
    else FacadeOutcome.delegated
  | FuseOp.symlinkOp parent =>
    if writableOf parent = false then FacadeOutcome.errorReply Errno.EPERM
    else FacadeOutcome.delegated
  | FuseOp.unlinkOp parent =>
    if writableOf parent = false then FacadeOutcome.errorReply Errno.EPERM
    else FacadeOutcome.delegated
  | FuseOp.rmdirOp parent =>
    if writableOf parent = false then FacadeOutcome.errorReply Errno.EPERM
    else FacadeOutcome.delegated
  | FuseOp.renameOp parent new_parent =>
    if writableOf parent = false then FacadeOutcome.errorReply Errno.EPERM
    else if parent = new_parent then FacadeOutcome.delegated
    else if writableOf new_parent = false then FacadeOutcome.errorReply Errno.EPERM
    else FacadeOutcome.delegated
  | FuseOp.setattrOp inode =>
    if writableOf inode = false then FacadeOutcome.errorReply Errno.EPERM
    else FacadeOutcome.delegated
  | FuseOp.setxattrOp inode =>
    if xattrs = false then FacadeOutcome.errorReply Errno.ENOSYS
    else if writableOf inode = false then FacadeOutcome.errorReply Errno.EPERM
    else FacadeOutcome.delegated
  | FuseOp.removexattrOp inode =>
    if xattrs = false then FacadeOutcome.errorReply Errno.ENOSYS
    else if writableOf inode = false then FacadeOutcome.errorReply Errno.EPERM
    else FacadeOutcome.delegated

/-- The nodes whose writability a handler checks: the parent directory for
the child-creating and child-removing handlers, the target node for
`setattr` and the xattr handlers, and both endpoints for `rename`. -/
def guardNodes : FuseOp → List Nat
  | FuseOp.createOp parent => [parent]
  | FuseOp.mkdirOp parent => [parent]
  | FuseOp.mknodOp parent => [parent]
  | FuseOp.symlinkOp parent => [parent]
  | FuseOp.unlinkOp parent => [parent]
  | FuseOp.rmdirOp parent => [parent]
  | FuseOp.renameOp parent new_parent => [parent, new_parent]
  | FuseOp.setattrOp inode => [inode]
  | FuseOp.setxattrOp inode => [inode]
  | FuseOp.removexattrOp inode => [inode]

/-- Whether a handler is one of the xattr operations, which the facade
rejects with ENOSYS before any other check when xattr support is off. -/
def isXattrOp : FuseOp → Bool
  | FuseOp.setxattrOp _ => true
  | FuseOp.removexattrOp _ => true
  | _ => false

/-! ### Claim C9 -/

/-- C9 counterexample: with xattr support disabled, `setxattr` on a
non-writable node replies ENOSYS, not EPERM — the claim does not hold for
the xattr handlers in that configuration. -/
theorem c9_counterexample :
    facadeGate false (fun _ => false) (FuseOp.setxattrOp 2) =
      FacadeOutcome.errorReply Errno.ENOSYS
    ∧ facadeGate false (fun _ => false) (FuseOp.setxattrOp 2) ≠
      FacadeOutcome.errorReply Errno.EPERM := by
  constructor
  · rfl
  · intro h
    exact absurd h (by decide)

/-- C9 (amended): for every mutating FUSE handler — with the xattr handlers
considered when xattr support is enabled — if any checked node (the parent,
the target, or either rename endpoint) is not writable, the facade replies
EPERM without delegating to the node method, so neither the in-memory tree
nor the host file system is modified. -/
theorem c9_eperm_gate (xattrs : Bool) (writableOf : Nat → Bool) (op : FuseOp)
    (hx : isXattrOp op = true → xattrs = true)
    (hw : ∃ n ∈ guardNodes op, writableOf n = false) :
    facadeGate xattrs writableOf op = FacadeOutcome.errorReply Errno.EPERM := by
  obtain ⟨n, hn, hwn⟩ := hw
  cases op with
  | createOp p =>
    simp [guardNodes] at hn
    subst hn
    simp [facadeGate, hwn]
  | mkdirOp p =>
    simp [guardNodes] at hn
    subst hn
    simp [facadeGate, hwn]
  | mknodOp p =>
    simp [guardNodes] at hn
    subst hn
    simp [facadeGate, hwn]
  | symlinkOp p =>
    simp [guardNodes] at hn
    subst hn
    simp [facadeGate, hwn]
  | unlinkOp p =>
    simp [guardNodes] at hn
    subst hn
    simp [facadeGate, hwn]
  | rmdirOp p =>
    simp [guardNodes] at hn
    subst hn
    simp [facadeGate, hwn]
  | renameOp p np =>
    simp [guardNodes] at hn
    rcases hn with h | h
    · subst h
      simp [facadeGate, hwn]
    · subst h
      by_cases hwp : writableOf p = false
      · simp [facadeGate, hwp]
      · have hwp' : writableOf p = true := by simpa using hwp
        have hpne : p ≠ n := by
          intro he
          rw [he, hwn] at hwp'
          exact absurd hwp' (by simp)
        simp [facadeGate, hwp', hpne, hwn]
  | setattrOp i =>
    simp [guardNodes] at hn
    subst hn
    simp [facadeGate, hwn]
  | setxattrOp i =>
    simp [guardNodes] at hn
    subst hn
    have hxt : xattrs = true := hx (by rfl)
    simp [facadeGate, hxt, hwn]
  | removexattrOp i =>
    simp [guardNodes] at hn
    subst hn
    have hxt : xattrs = true := hx (by rfl)
    simp [facadeGate, hxt, hwn]

/-- Witness for the amended C9: `create` in a non-writable parent directory
is answered with EPERM. -/
theorem c9_eperm_gate_witness :
    facadeGate true (fun _ => false) (FuseOp.createOp 1) =
      FacadeOutcome.errorReply Errno.EPERM :=
  c9_eperm_gate true (fun _ => false) (FuseOp.createOp 1)
    (fun _ => rfl) ⟨1, by simp [guardNodes], rfl⟩

/-! ### The inode table registration discipline -/

/-- A node as the `nodes` table sees it: its immutable inode number plus a
tag distinguishing distinct node objects that might carry the same inode. -/
structure ArcNode where
  inode : Nat
  tag : Nat
  deriving DecidableEq, Repr

/-- `SandboxFS::insert_node`: `nodes.entry(node.inode()).or_insert(node)` —
the node is inserted only when its inode is absent from the table. -/
def insert_node (t : NodeTable ArcNode) (node : ArcNode) : NodeTable ArcNode :=
  match tableGet t node.inode with
  | some _ => t
  | none => (node.inode, node) :: t

/-- The table update performed by the `lookup` handler: insert the node
under its inode only after checking `contains_key` is false. -/
def lookup_insert (t : NodeTable ArcNode) (node : ArcNode) : NodeTable ArcNode :=
  if (tableGet t node.inode).isSome then t
  else (node.inode, node) :: t

/-- One table-mutating step of the facade: an `insert_node` call or the
conditional insertion of the `lookup` handler. -/
inductive TableOp
  | insertNode (node : ArcNode)
  | lookupInsert (node : ArcNode)
  deriving DecidableEq, Repr

/-- Run a sequence of table-mutating steps. -/
def applyTableOps (t : NodeTable ArcNode) : List TableOp → NodeTable ArcNode
  | [] => t
  | op :: rest =>
    match op with
    | TableOp.insertNode n => applyTableOps (insert_node t n) rest
    | TableOp.lookupInsert n => applyTableOps (lookup_insert t n) rest

/-! ### Claim C10 -/

/-- C10: once an inode number is bound in the `nodes` table, no sequence of
`insert_node` calls and `lookup`-handler insertions ever replaces the
binding — every later `find_node` on that inode returns the originally
registered node. -/
theorem c10_inode_binding_stable (t : NodeTable ArcNode) (i : Nat)
    (v : ArcNode) (hv : tableGet t i = some v) (ops : List TableOp) :
    tableGet (applyTableOps t ops) i = some v := by
  induction ops generalizing t with
  | nil => exact hv
  | cons op rest ih =>
    cases op with
    | insertNode n =>
      apply ih
      unfold insert_node
      cases hg : tableGet t n.inode with
      | some w => exact hv
      | none =>
        have hne : n.inode ≠ i := by
          intro he
          rw [he, hv] at hg
          exact absurd hg (by simp)
        show tableGet ((n.inode, n) :: t) i = some v
        simp [tableGet, hne, hv]
    | lookupInsert n =>
      apply ih
      unfold lookup_insert
      by_cases hg : (tableGet t n.inode).isSome = true
      · rw [if_pos hg]
        exact hv
      · rw [if_neg hg]
        have hne : n.inode ≠ i := by
          intro he
          rw [he, hv] at hg
          exact absurd rfl hg
        simp [tableGet, hne, hv]

/-- Witness for C10: the binding of inode 1 survives conflicting insertion
attempts for inode 1 and an unrelated insertion for inode 2. -/
theorem c10_inode_binding_stable_witness :
    tableGet (applyTableOps [(1, ArcNode.mk 1 0)]
      [TableOp.insertNode (ArcNode.mk 1 5), TableOp.lookupInsert (ArcNode.mk 1 7),
       TableOp.insertNode (ArcNode.mk 2 9)]) 1 = some (ArcNode.mk 1 0) :=
  c10_inode_binding_stable [(1, ArcNode.mk 1 0)] 1 (ArcNode.mk 1 0) rfl
    [TableOp.insertNode (ArcNode.mk 1 5), TableOp.lookupInsert (ArcNode.mk 1 7),
     TableOp.insertNode (ArcNode.mk 2 9)]

end Sandboxfs
